import Mathlib

/-!
Shallow embedding of the vgx AI-code-detection engine (package
pkg/detection: stylometry.go, patterns.go, detector.go).

Modeling conventions:
- Go float64 arithmetic is modeled by exact rational arithmetic (ℚ).
- Go strings are modeled as lists of characters (`Str`); all inputs of
  interest are ASCII, where Go byte indexing and character indexing agree.
- A compiled regular expression (Go regexp.Regexp) is modeled by its
  FindAllStringIndex function: the list of non-overlapping match spans
  (start offset, end offset exclusive) it produces on a given text.  The
  regexp engine is the Go standard library, not code of this repository,
  so these functions are parameters of the embedding (`RegexEnv`), with a
  well-formedness predicate capturing the RE2 guarantees the repository
  relies on: every reported span lies inside the text, and every regex in
  this catalog contains at least one mandatory literal character, so its
  matches are nonempty.
- File paths are modeled as lists of path components; filepath.Join is
  component concatenation and filepath.Ext looks at the final component.
-/

namespace VGX

/-- Code text: Go strings modeled as lists of characters. -/
abbrev Str := List Char

/-- ASCII fragment of the whitespace class recognized by Go
strings.TrimSpace (unicode.IsSpace). -/
def isGoSpace (c : Char) : Bool :=
  c = ' ' || c = '\t' || c = '\n' || c = '\x0b' || c = '\x0c' || c = '\r'

/-- strings.TrimSpace. -/
def trimSpace (s : Str) : Str :=
  ((s.dropWhile isGoSpace).reverse.dropWhile isGoSpace).reverse

/-- strings.Split(code, newline): the list of newline-separated segments;
the empty string yields one empty segment. -/
def splitLines (s : Str) : List Str := List.splitOn '\n' s

/-- strings.Count(s, newline). -/
def countNL (s : Str) : Nat := (s.filter (fun c => c = '\n')).length

/-! ## stylometry.go -/

/-- Word characters of the RE2 identifier regex character class. -/
def isWordChar (c : Char) : Bool := c.isAlpha || c.isDigit || c = '_'

/-- Maximal runs of word characters of a text, in order.  This is how the
identifier regex (lowercase start, word-character tail, word boundaries on
both sides) of analyzeNaming sees a text: each candidate identifier is one
maximal run. -/
def wordRuns : Str → List Str
  | [] => []
  | c :: cs =>
    let rest := wordRuns cs
    if isWordChar c then
      match cs, rest with
      | d :: _, t :: ts => if isWordChar d then (c :: t) :: ts else [c] :: rest
      | _, _ => [c] :: rest
    else rest

/-- regexp FindAllString for the identifier regex of analyzeNaming: the
maximal word-character runs that begin with a lowercase letter. -/
def identifiers (code : Str) : List Str :=
  (wordRuns code).filter (fun t =>
    match t with
    | c :: _ => c.isLower
    | [] => false)

/-- Full-string match of the camelCase regex of analyzeNaming: one or more
lowercase letters followed by any number of groups of one uppercase letter
and trailing lowercase letters.  Equivalently: nonempty, lowercase head,
all letters, and the first non-lowercase character (if any) is uppercase. -/
def isCamelCase (t : Str) : Bool :=
  match t with
  | [] => false
  | c :: cs =>
    let rest := cs.dropWhile Char.isLower
    c.isLower && rest.all Char.isAlpha &&
      (match rest with
       | [] => true
       | d :: _ => d.isUpper)

/-- The snake_case test of analyzeNaming: contains an underscore and is
equal to its own lowercasing. -/
def isSnakeCase (t : Str) : Bool :=
  t.contains '_' && t.map Char.toLower == t

/-- StyleAnalyzer.analyzeNaming. -/
def analyzeNaming (code : Str) : ℚ :=
  let ms := identifiers code
  if ms.length < 5 then 0.5
  else
    let camel := (ms.filter isCamelCase).length
    let snake := (ms.filter isSnakeCase).length
    ((max camel snake : Nat) : ℚ) / (ms.length : ℚ)

/-- Leading-whitespace width: len(line) - len(TrimLeft(line, space-tab)). -/
def indentOf (l : Str) : Nat :=
  l.length - (l.dropWhile (fun c => c = ' ' || c = '\t')).length

/-- StyleAnalyzer.analyzeIndentation. -/
def analyzeIndentation (lines : List Str) : ℚ :=
  let indents := (lines.filter (fun l => !(trimSpace l).isEmpty)).map indentOf
  if indents.length = 0 then 0.5
  else
    let indentUnit := if indents.any (fun i => i % 2 == 0 && i % 4 != 0) then 2 else 4
    let consistent := (indents.filter (fun i => i % indentUnit == 0)).length
    (consistent : ℚ) / (indents.length : ℚ)

/-- Comment-line test of analyzeComments (trimmed line starts with a line
comment, hash comment, block comment opener, or block comment
continuation). -/
def isCommentLine (l : Str) : Bool :=
  let t := trimSpace l
  "//".toList.isPrefixOf t || "#".toList.isPrefixOf t ||
    "/*".toList.isPrefixOf t || "*".toList.isPrefixOf t

/-- StyleAnalyzer.analyzeComments. -/
def analyzeComments (lines : List Str) : ℚ :=
  let commentLines := (lines.filter isCommentLine).length
  if lines.length = 0 then 0
  else (commentLines : ℚ) / (lines.length : ℚ)

/-- StyleAnalyzer.avgLineLength. -/
def avgLineLength (lines : List Str) : ℚ :=
  if lines.length = 0 then 0
  else (((lines.map List.length).sum : Nat) : ℚ) / (lines.length : ℚ)

/-- StyleAnalyzer.lineLengthVariance (population standard deviation);
math.Sqrt is a standard-library function and enters as the parameter
sqrtFn. -/
def lineLengthVariance (sqrtFn : ℚ → ℚ) (lines : List Str) : ℚ :=
  if lines.length < 2 then 0
  else
    let avg := avgLineLength lines
    let sumSquares :=
      (lines.map (fun l => ((l.length : ℚ) - avg) * ((l.length : ℚ) - avg))).sum
    sqrtFn (sumSquares / (lines.length : ℚ))

/-- StyleAnalyzer.analyzeBoilerplate: total boilerplate-regex match count
normalized by lineCount/10, capped at 1. -/
def analyzeBoilerplate (pats : List (Str → List (Nat × Nat))) (code : Str)
    (lineCount : Nat) : ℚ :=
  let matchCount : Nat := (pats.map (fun f => (f code).length)).sum
  if lineCount = 0 then 0
  else min ((matchCount : ℚ) / ((lineCount : ℚ) / 10)) 1

/-- StyleAnalyzer.emptyLineRatio. -/
def emptyLineRatio (lines : List Str) : ℚ :=
  let empty := (lines.filter (fun l => (trimSpace l).isEmpty)).length
  if lines.length = 0 then 0
  else (empty : ℚ) / (lines.length : ℚ)

/-- StyleMetrics: the extracted style features. -/
structure StyleMetrics where
  NamingConsistency : ℚ
  IndentationConsistency : ℚ
  CommentDensity : ℚ
  AvgLineLength : ℚ
  LineLengthVariance : ℚ
  BoilerplateRatio : ℚ
  EmptyLineRatio : ℚ

/-- StyleAnalyzer: the compiled boilerplate regexes (modeled by their
match functions) plus the math.Sqrt parameter. -/
structure StyleAnalyzer where
  boilerplatePatterns : List (Str → List (Nat × Nat))
  sqrtFn : ℚ → ℚ

/-- StyleAnalyzer.Analyze. -/
def StyleAnalyzer.Analyze (a : StyleAnalyzer) (code : Str) : StyleMetrics :=
  let lines := splitLines code
  let nonEmptyLines := lines.filter (fun l => !(trimSpace l).isEmpty)
  { NamingConsistency := analyzeNaming code
    IndentationConsistency := analyzeIndentation lines
    CommentDensity := analyzeComments lines
    AvgLineLength := avgLineLength nonEmptyLines
    LineLengthVariance := lineLengthVariance a.sqrtFn nonEmptyLines
    BoilerplateRatio := analyzeBoilerplate a.boilerplatePatterns code lines.length
    EmptyLineRatio := emptyLineRatio lines }

/-- The clamp to [0,1] applied to every signal before weighting. -/
def clip01 (x : ℚ) : ℚ := max 0 (min 1 x)

/-- The fixed feature weights of StyleMetrics.AIConfidence, in the order
naming, indentation, boilerplate, comment, linevar, emptyline, linelen. -/
def styleWeights : List ℚ := [0.20, 0.20, 0.20, 0.10, 0.15, 0.10, 0.05]

/-- The raw (pre-clamp) signals of StyleMetrics.AIConfidence, in the same
order as styleWeights. -/
def StyleMetrics.signals (m : StyleMetrics) : List ℚ :=
  [m.NamingConsistency, m.IndentationConsistency, m.BoilerplateRatio,
   1 - |m.CommentDensity - 0.15| * 5,
   max 0 (1 - m.LineLengthVariance / 30),
   1 - |m.EmptyLineRatio - 0.15| * 5,
   1 - |m.AvgLineLength - 45| / 45]

/-- StyleMetrics.AIConfidence: every signal is clamped to [0,1] and the
clamped signals are combined with the fixed weights. -/
def StyleMetrics.AIConfidence (m : StyleMetrics) : ℚ :=
  (List.zipWith (fun s w => clip01 s * w) m.signals styleWeights).sum

/-- StyleMetrics.ConfidenceLevel. -/
def StyleMetrics.ConfidenceLevel (m : StyleMetrics) : String :=
  let conf := m.AIConfidence
  if conf > 0.85 then "very_high"
  else if conf > 0.70 then "high"
  else if conf > 0.50 then "medium"
  else if conf > 0.30 then "low"
  else "very_low"

/-! ## patterns.go -/

/-- PatternMatch: one detected occurrence of a catalog pattern. -/
structure PatternMatch where
  Name : String
  Confidence : ℚ
  LineStart : Nat
  LineEnd : Nat
  Snippet : Str

/-- patternDef: a catalog entry; the compiled regex is modeled by its
FindAllStringIndex function. -/
structure PatternDef where
  name : String
  find : Str → List (Nat × Nat)
  weight : ℚ

/-- PatternDetector. -/
structure PatternDetector where
  patterns : List PatternDef

/-- The body of the inner loop of PatternDetector.Detect: record one
match span m of pattern p (1-based start and end lines computed by
counting newlines before the span boundaries, snippet truncated past 80
characters with an appended ellipsis) and add the pattern weight to the
running total. -/
def detectMatchStep (p : PatternDef) (code : Str)
    (acc : List PatternMatch × ℚ) (m : Nat × Nat) : List PatternMatch × ℚ :=
  let lineStart := countNL (code.take m.1) + 1
  let lineEnd := countNL (code.take m.2) + 1
  let sn := (code.drop m.1).take (m.2 - m.1)
  let snippet := if sn.length > 80 then sn.take 80 ++ "...".toList else sn
  (acc.1 ++ [⟨p.name, p.weight, lineStart, lineEnd, snippet⟩],
   acc.2 + p.weight)

/-- The body of the outer loop of PatternDetector.Detect: process every
reported match of one pattern. -/
def detectPatternStep (code : Str) (acc : List PatternMatch × ℚ)
    (p : PatternDef) : List PatternMatch × ℚ :=
  (p.find code).foldl (detectMatchStep p code) acc

/-- PatternDetector.Detect: for every pattern and every reported match
span, record a PatternMatch and add the pattern weight to a running
total; the returned score is the total capped at 1. -/
def PatternDetector.Detect (pd : PatternDetector) (code : Str) :
    List PatternMatch × ℚ :=
  let r := pd.patterns.foldl (detectPatternStep code)
    (([], 0) : List PatternMatch × ℚ)
  (r.1, if r.2 > 1 then 1 else r.2)

/-- The name/weight table of NewPatternDetector, in source order.  The
regex source texts are omitted here (each compiled regex is modeled by a
match function supplied through RegexEnv, keyed by the pattern name). -/
def patternWeightTable : List (String × ℚ) :=
  [("copilot_try_catch", 0.15), ("standard_error_throw", 0.12),
   ("async_await_fetch", 0.10), ("promise_chain", 0.08),
   ("jsdoc_complete", 0.10), ("inline_explanation", 0.08),
   ("arrow_with_types", 0.10), ("export_default_function", 0.06),
   ("use_effect_deps", 0.08), ("use_state_destructure", 0.08),
   ("go_error_check", 0.12), ("go_defer", 0.08), ("go_struct_init", 0.08),
   ("python_docstring", 0.10), ("python_type_hints", 0.08),
   ("numbered_steps", 0.06), ("todo_ai_style", 0.05)]

/-- The regexp engine of the Go standard library, as seen by this
repository: a compiled matcher per named regex of the catalogs, plus
math.Sqrt.  Keys for the nine boilerplate regexes of NewStyleAnalyzer are
listed in boilerplateKeys. -/
structure RegexEnv where
  find : String → Str → List (Nat × Nat)
  sqrt : ℚ → ℚ

/-- Keys naming the nine boilerplate regexes of NewStyleAnalyzer, in
source order (try/catch, guard-return, async function, async arrow,
export, import, Go error check, Go defer, Go method). -/
def boilerplateKeys : List String :=
  ["style_try_catch", "style_guard_return", "style_async_function",
   "style_async_arrow", "style_export", "style_import_from",
   "style_go_err_check", "style_go_defer", "style_go_method"]

/-- NewStyleAnalyzer.  Every regex of the source catalog compiles, so the
defensive drop-on-compile-failure of the source keeps all nine entries. -/
def NewStyleAnalyzer (env : RegexEnv) : StyleAnalyzer :=
  ⟨boilerplateKeys.map env.find, env.sqrt⟩

/-- NewPatternDetector.  Every regex of the source catalog compiles, so
the defensive drop-on-compile-failure of the source keeps all 17
entries. -/
def NewPatternDetector (env : RegexEnv) : PatternDetector :=
  ⟨patternWeightTable.map (fun nw => ⟨nw.1, env.find nw.1, nw.2⟩)⟩

/-- Well-formedness of one modeled matcher, reflecting the RE2 guarantees
the repository relies on for the regexes of its catalogs: every reported
span lies inside the text and is nonempty (each catalog regex contains at
least one mandatory literal character). -/
def FindWF (f : Str → List (Nat × Nat)) : Prop :=
  ∀ s m, m ∈ f s → m.1 < m.2 ∧ m.2 ≤ s.length

/-- Well-formedness of the whole engine. -/
def RegexEnv.WF (env : RegexEnv) : Prop := ∀ k, FindWF (env.find k)

/-! ## detector.go -/

/-- Result: per-file analysis result.  The file path is a list of path
components. -/
structure Result where
  FilePath : List Str
  AIConfidence : ℚ
  ConfidenceLevel : String
  StyleScore : ℚ
  PatternScore : ℚ
  Patterns : List PatternMatch
  IsAIGenerated : Bool
  LinesOfCode : Nat

/-- ScanResult: aggregated results for a directory scan. -/
structure ScanResult where
  FilesScanned : Nat
  AIDetected : Nat
  HumanWritten : Nat
  MaxAIConfidence : ℚ
  AIPercentage : ℚ
  Results : List Result

/-- Detector. -/
structure Detector where
  styleAnalyzer : StyleAnalyzer
  patternDetector : PatternDetector
  threshold : ℚ

/-- NewDetector: default threshold 0.70. -/
def NewDetector (env : RegexEnv) : Detector :=
  ⟨NewStyleAnalyzer env, NewPatternDetector env, 0.70⟩

/-- Detector.SetThreshold. -/
def Detector.SetThreshold (d : Detector) (t : ℚ) : Detector :=
  { d with threshold := t }

/-- Detector.confidenceLevel (the receiver is unused in the source). -/
def Detector.confidenceLevel (conf : ℚ) : String :=
  if conf > 0.85 then "very_high"
  else if conf > 0.70 then "high"
  else if conf > 0.50 then "medium"
  else if conf > 0.30 then "low"
  else "very_low"

/-- Detector.AnalyzeCode. -/
def Detector.AnalyzeCode (d : Detector) (code : Str) (filename : List Str) :
    Result :=
  let lines := (splitLines code).length
  let metrics := d.styleAnalyzer.Analyze code
  let styleScore := metrics.AIConfidence
  let pr := d.patternDetector.Detect code
  let combined := styleScore * 0.45 + pr.2 * 0.55
  { FilePath := filename
    AIConfidence := combined
    ConfidenceLevel := Detector.confidenceLevel combined
    StyleScore := styleScore
    PatternScore := pr.2
    Patterns := pr.1
    IsAIGenerated := decide (combined ≥ d.threshold)
    LinesOfCode := lines }

/-! ## ScanDirectory -/

/-- A filesystem tree.  A file body of none models an unreadable file
(os.ReadFile error). -/
inductive FSEntry where
  | file (name : Str) (content : Option Str)
  | dir (name : Str) (children : List FSEntry)

/-- The fixed skip-list of directory base names. -/
def skipDirList : List Str :=
  ["node_modules", ".git", "vendor", "dist",
   "build", "__pycache__", ".next", "target"].map String.toList

/-- The fixed allow-list of recognized source extensions. -/
def extList : List Str :=
  [".go", ".py", ".js", ".ts", ".tsx",
   ".jsx", ".java", ".kt", ".rs", ".rb",
   ".php", ".swift", ".cs", ".cpp", ".c"].map String.toList

/-- filepath.Ext applied to the final path component: the suffix starting
at the final dot, empty when there is no dot. -/
def extOf (name : Str) : Str :=
  if name.contains '.' then
    '.' :: (name.reverse.takeWhile (fun c => c != '.')).reverse
  else []

/-- The accumulation state of ScanDirectory: the ScanResult under
construction plus the two running line totals. -/
structure WalkAcc where
  res : ScanResult
  totalAILines : Nat
  totalLines : Nat

/-- The body of the walk callback for a non-directory entry: skip
unrecognized extensions and unreadable files, otherwise analyze and
accumulate. -/
def processFile (d : Detector) (pre : List Str) (n : Str)
    (content : Option Str) (acc : WalkAcc) : WalkAcc :=
  if extOf n ∈ extList then
    match content with
    | none => acc
    | some code =>
      let r := d.AnalyzeCode code (pre ++ [n])
      { res :=
          { FilesScanned := acc.res.FilesScanned + 1
            AIDetected :=
              if r.IsAIGenerated then acc.res.AIDetected + 1
              else acc.res.AIDetected
            HumanWritten :=
              if r.IsAIGenerated then acc.res.HumanWritten
              else acc.res.HumanWritten + 1
            MaxAIConfidence :=
              if r.AIConfidence > acc.res.MaxAIConfidence then r.AIConfidence
              else acc.res.MaxAIConfidence
            AIPercentage := acc.res.AIPercentage
            Results := acc.res.Results ++ [r] }
        totalAILines :=
          if r.IsAIGenerated then acc.totalAILines + r.LinesOfCode
          else acc.totalAILines
        totalLines := acc.totalLines + r.LinesOfCode }
  else acc

mutual
/-- filepath.Walk: a directory whose base name is on the skip-list is
pruned (SkipDir); otherwise its children are visited in order. -/
def walkEntry (d : Detector) : FSEntry → List Str → WalkAcc → WalkAcc
  | .file n c, pre, acc => processFile d pre n c acc
  | .dir n cs, pre, acc =>
      if n ∈ skipDirList then acc else walkList d cs (pre ++ [n]) acc

/-- Visiting a list of sibling entries in order. -/
def walkList (d : Detector) : List FSEntry → List Str → WalkAcc → WalkAcc
  | [], _, acc => acc
  | e :: es, pre, acc => walkList d es pre (walkEntry d e pre acc)
end

/-- Detector.ScanDirectory: walk the tree from the root, then set the
line-weighted AI percentage when any lines were scanned. -/
def Detector.ScanDirectory (d : Detector) (root : FSEntry) : ScanResult :=
  let acc0 : WalkAcc := ⟨⟨0, 0, 0, 0, 0, []⟩, 0, 0⟩
  let acc := walkEntry d root [] acc0
  if acc.totalLines > 0 then
    { acc.res with
        AIPercentage := (acc.totalAILines : ℚ) / (acc.totalLines : ℚ) * 100 }
  else acc.res

/-! ## Specification-side derived quantities -/

/-- Total line count over a list of results. -/
def sumLines (rs : List Result) : Nat := (rs.map Result.LinesOfCode).sum

/-- Total line count over the AI-flagged results. -/
def sumAILines (rs : List Result) : Nat :=
  ((rs.filter (fun r => r.IsAIGenerated)).map Result.LinesOfCode).sum

/-- The running-maximum update of ScanDirectory. -/
def maxStep (m : ℚ) (r : Result) : ℚ :=
  if r.AIConfidence > m then r.AIConfidence else m

/-- The running maximum of AI confidences over a result list, started at
0, exactly as ScanDirectory accumulates it. -/
def maxFold (rs : List Result) : ℚ := rs.foldl maxStep 0

/-- The invariant that the walk of ScanDirectory maintains on its
accumulator: every counter agrees with the result list built so far, no
recorded file path has a skip-listed directory component, and every
recorded confidence is nonnegative. -/
structure GoodAcc (acc : WalkAcc) : Prop where
  paths : ∀ r ∈ acc.res.Results, ∀ c ∈ r.FilePath.dropLast, c ∉ skipDirList
  scanned : acc.res.FilesScanned = acc.res.Results.length
  ai : acc.res.AIDetected =
    (acc.res.Results.filter (fun r => r.IsAIGenerated)).length
  human : acc.res.HumanWritten =
    (acc.res.Results.filter (fun r => !r.IsAIGenerated)).length
  lines : acc.totalLines = sumLines acc.res.Results
  ailines : acc.totalAILines = sumAILines acc.res.Results
  maxc : acc.res.MaxAIConfidence = maxFold acc.res.Results
  pct : acc.res.AIPercentage = 0
  conf_nonneg : ∀ r ∈ acc.res.Results, 0 ≤ r.AIConfidence

/-! ## Concrete fixtures used by witnesses and counterexamples -/

/-- The simplest well-formed regexp engine: no regex reports any match
(and the square root is the constant 0, which is never reached on the
inputs below). -/
def env0 : RegexEnv := ⟨fun _ _ => [], fun _ => 0⟩

/-- A 90-character text that the copilot_try_catch regex of the source
catalog matches in full: a try block holding 60 filler characters,
followed by a catch of e whose body contains a console.log call.  RE2
reports the single non-overlapping match span (0, 90) on it. -/
def cexCode : Str :=
  "try \x7b".toList ++ List.replicate 60 'a' ++
    "\x7d catch (e) \x7bconsole.log\x7d".toList

/-- The FindAllStringIndex behavior of the compiled copilot_try_catch
regex on cexCode (and, for definiteness, no match elsewhere). -/
def cexFind : Str → List (Nat × Nat) :=
  fun s => if s = cexCode then [(0, 90)] else []

/-- A regexp engine on which exactly the copilot_try_catch regex matches,
and only on cexCode. -/
def envCex : RegexEnv :=
  ⟨fun k => if k = "copilot_try_catch" then cexFind else fun _ => [],
   fun _ => 0⟩

/-- The full 17-entry source catalog compiled over envCex. -/
def pdCex : PatternDetector := NewPatternDetector envCex

/-- The PatternMatch that pdCex records on cexCode: the whole text is one
match on line 1, and the 90-character snippet is truncated to its first
80 characters plus a 3-character ellipsis. -/
def cexMatch : PatternMatch :=
  ⟨"copilot_try_catch", 0.15, 1, 1, cexCode.take 80 ++ "...".toList⟩

/-- The detector used by witnesses: default construction over env0 with
the default threshold made explicit. -/
def d0 : Detector := (NewDetector env0).SetThreshold 0.70

/-- A small directory tree used by witnesses: one matching source file
with empty (readable) content under one ordinary directory. -/
def tree0 : FSEntry :=
  .dir "src".toList [.file "a.go".toList (some [])]

/-- The single result that scanning tree0 with d0 produces. -/
def r0 : Result := d0.AnalyzeCode [] ["src".toList, "a.go".toList]

/-! ## Lemmas about the stylometric score -/

theorem clip01_bounds (x : ℚ) : 0 ≤ clip01 x ∧ clip01 x ≤ 1 :=
  ⟨le_max_left 0 _, max_le (by norm_num) (min_le_left 1 x)⟩

theorem styleConf_eq (m : StyleMetrics) :
    m.AIConfidence =
      clip01 m.NamingConsistency * 0.20 +
      clip01 m.IndentationConsistency * 0.20 +
      clip01 m.BoilerplateRatio * 0.20 +
      clip01 (1 - |m.CommentDensity - 0.15| * 5) * 0.10 +
      clip01 (max 0 (1 - m.LineLengthVariance / 30)) * 0.15 +
      clip01 (1 - |m.EmptyLineRatio - 0.15| * 5) * 0.10 +
      clip01 (1 - |m.AvgLineLength - 45| / 45) * 0.05 := by
  simp only [StyleMetrics.AIConfidence, StyleMetrics.signals, styleWeights,
    List.zipWith_cons_cons, List.zipWith_nil_right, List.sum_cons,
    List.sum_nil]
  ring

theorem styleConf_bounds (m : StyleMetrics) :
    0 ≤ m.AIConfidence ∧ m.AIConfidence ≤ 1 := by
  rw [styleConf_eq]
  obtain ⟨a1, b1⟩ := clip01_bounds m.NamingConsistency
  obtain ⟨a2, b2⟩ := clip01_bounds m.IndentationConsistency
  obtain ⟨a3, b3⟩ := clip01_bounds m.BoilerplateRatio
  obtain ⟨a4, b4⟩ := clip01_bounds (1 - |m.CommentDensity - 0.15| * 5)
  obtain ⟨a5, b5⟩ := clip01_bounds (max 0 (1 - m.LineLengthVariance / 30))
  obtain ⟨a6, b6⟩ := clip01_bounds (1 - |m.EmptyLineRatio - 0.15| * 5)
  obtain ⟨a7, b7⟩ := clip01_bounds (1 - |m.AvgLineLength - 45| / 45)
  constructor
  · have h1 := mul_nonneg a1 (by norm_num : (0:ℚ) ≤ 0.20)
    have h2 := mul_nonneg a2 (by norm_num : (0:ℚ) ≤ 0.20)
    have h3 := mul_nonneg a3 (by norm_num : (0:ℚ) ≤ 0.20)
    have h4 := mul_nonneg a4 (by norm_num : (0:ℚ) ≤ 0.10)
    have h5 := mul_nonneg a5 (by norm_num : (0:ℚ) ≤ 0.15)
    have h6 := mul_nonneg a6 (by norm_num : (0:ℚ) ≤ 0.10)
    have h7 := mul_nonneg a7 (by norm_num : (0:ℚ) ≤ 0.05)
    linarith
  · have h1 := mul_le_of_le_one_left (by norm_num : (0:ℚ) ≤ 0.20) b1
    have h2 := mul_le_of_le_one_left (by norm_num : (0:ℚ) ≤ 0.20) b2
    have h3 := mul_le_of_le_one_left (by norm_num : (0:ℚ) ≤ 0.20) b3
    have h4 := mul_le_of_le_one_left (by norm_num : (0:ℚ) ≤ 0.10) b4
    have h5 := mul_le_of_le_one_left (by norm_num : (0:ℚ) ≤ 0.15) b5
    have h6 := mul_le_of_le_one_left (by norm_num : (0:ℚ) ≤ 0.10) b6
    have h7 := mul_le_of_le_one_left (by norm_num : (0:ℚ) ≤ 0.05) b7
    linarith

/-! ## Lemmas about the pattern score -/

theorem detectMatchStep_snd (p : PatternDef) (code : Str) :
    ∀ (ms : List (Nat × Nat)) (acc : List PatternMatch × ℚ),
      (ms.foldl (detectMatchStep p code) acc).2 =
        acc.2 + p.weight * (ms.length : ℚ) := by
  intro ms
  induction ms with
  | nil => intro acc; simp
  | cons m ms ih =>
    intro acc
    rw [List.foldl_cons, ih]
    simp only [detectMatchStep, List.length_cons]
    push_cast
    ring

theorem detectPatternStep_snd (code : Str) :
    ∀ (ps : List PatternDef) (acc : List PatternMatch × ℚ),
      (ps.foldl (detectPatternStep code) acc).2 =
        acc.2 +
          (ps.map (fun p => p.weight * ((p.find code).length : ℚ))).sum := by
  intro ps
  induction ps with
  | nil => intro acc; simp
  | cons p ps ih =>
    intro acc
    rw [List.foldl_cons, ih]
    simp only [detectPatternStep, List.map_cons, List.sum_cons]
    rw [detectMatchStep_snd]
    ring

theorem Detect_snd_eq (pd : PatternDetector) (code : Str) :
    (pd.Detect code).2 =
      min 1 ((pd.patterns.map
        (fun p => p.weight * ((p.find code).length : ℚ))).sum) := by
  have h := detectPatternStep_snd code pd.patterns ([], 0)
  rw [zero_add] at h
  show (if (pd.patterns.foldl (detectPatternStep code) ([], 0)).2 > 1 then (1:ℚ)
    else (pd.patterns.foldl (detectPatternStep code) ([], 0)).2) = _
  rw [h]
  split_ifs with h1
  · exact (min_eq_left (le_of_lt h1)).symm
  · push_neg at h1
    exact (min_eq_right h1).symm

theorem detect_score_nonneg (pd : PatternDetector) (code : Str)
    (hw : ∀ p ∈ pd.patterns, 0 ≤ p.weight) : 0 ≤ (pd.Detect code).2 := by
  rw [Detect_snd_eq]
  refine le_min (by norm_num) (List.sum_nonneg ?_)
  intro x hx
  rcases List.mem_map.mp hx with ⟨p, hp, rfl⟩
  exact mul_nonneg (hw p hp) (Nat.cast_nonneg _)

theorem detect_score_le_one (pd : PatternDetector) (code : Str) :
    (pd.Detect code).2 ≤ 1 := by
  rw [Detect_snd_eq]
  exact min_le_left 1 _

theorem newPD_weights (env : RegexEnv) :
    ∀ p ∈ (NewPatternDetector env).patterns, 0 ≤ p.weight := by
  intro p hp
  simp only [NewPatternDetector, patternWeightTable, List.map_cons,
    List.map_nil, List.mem_cons, List.not_mem_nil, or_false] at hp
  rcases hp with rfl | rfl | rfl | rfl | rfl | rfl | rfl | rfl | rfl | rfl |
    rfl | rfl | rfl | rfl | rfl | rfl | rfl <;> norm_num

/-! ## Lemmas about AnalyzeCode -/

theorem analyzeCode_fields (d : Detector) (code : Str) (fname : List Str) :
    (d.AnalyzeCode code fname).StyleScore =
        (d.styleAnalyzer.Analyze code).AIConfidence ∧
      (d.AnalyzeCode code fname).PatternScore =
        (d.patternDetector.Detect code).2 ∧
      (d.AnalyzeCode code fname).AIConfidence =
        (d.styleAnalyzer.Analyze code).AIConfidence * 0.45 +
          (d.patternDetector.Detect code).2 * 0.55 :=
  ⟨rfl, rfl, rfl⟩

theorem analyzeCode_conf_bounds (d : Detector) (code : Str) (fname : List Str)
    (hw : ∀ p ∈ d.patternDetector.patterns, 0 ≤ p.weight) :
    0 ≤ (d.AnalyzeCode code fname).AIConfidence ∧
      (d.AnalyzeCode code fname).AIConfidence ≤ 1 := by
  rw [(analyzeCode_fields d code fname).2.2]
  obtain ⟨hs0, hs1⟩ := styleConf_bounds (d.styleAnalyzer.Analyze code)
  have hp0 := detect_score_nonneg d.patternDetector code hw
  have hp1 := detect_score_le_one d.patternDetector code
  constructor <;> nlinarith

/-! ## C1 -/

/-- C1: for every input text and every configured threshold in [0,1], the
Result of AnalyzeCode satisfies isAIGenerated = (combined AI confidence ≥
threshold), where the threshold is the detector field read at analysis
time; NewDetector installs the default 0.70. -/
theorem claim1_verdict_iff_threshold (env : RegexEnv) (d : Detector)
    (code : Str) (fname : List Str)
    (h0 : 0 ≤ d.threshold) (h1 : d.threshold ≤ 1) :
    ((d.AnalyzeCode code fname).IsAIGenerated = true ↔
        d.threshold ≤ (d.AnalyzeCode code fname).AIConfidence) ∧
      (NewDetector env).threshold = 0.70 := by
  constructor
  · simp [Detector.AnalyzeCode, ge_iff_le]
  · rfl

/-- Witness for C1 at the concrete detector d0 (threshold 0.70) on the
empty input. -/
theorem claim1_witness :
    (0 ≤ d0.threshold ∧ d0.threshold ≤ 1) ∧
      ((d0.AnalyzeCode [] []).IsAIGenerated = true ↔
          d0.threshold ≤ (d0.AnalyzeCode [] []).AIConfidence) ∧
        (NewDetector env0).threshold = 0.70 := by
  have h0 : 0 ≤ d0.threshold := by norm_num [d0, Detector.SetThreshold]
  have h1 : d0.threshold ≤ 1 := by norm_num [d0, Detector.SetThreshold]
  exact ⟨⟨h0, h1⟩, claim1_verdict_iff_threshold env0 d0 [] [] h0 h1⟩

/-! ## C2 -/

/-- C2: the combined confidence of AnalyzeCode equals
styleScore * 0.45 + patternScore * 0.55 exactly, where styleScore is the
stylometry AIConfidence of the text and patternScore is the pattern
detector score of the text; the Result records those very sub-scores. -/
theorem claim2_combined_weighted_sum (d : Detector) (code : Str)
    (fname : List Str) :
    (d.AnalyzeCode code fname).AIConfidence =
        (d.styleAnalyzer.Analyze code).AIConfidence * 0.45 +
          (d.patternDetector.Detect code).2 * 0.55 ∧
      (d.AnalyzeCode code fname).StyleScore =
        (d.styleAnalyzer.Analyze code).AIConfidence ∧
      (d.AnalyzeCode code fname).PatternScore =
        (d.patternDetector.Detect code).2 :=
  ⟨rfl, rfl, rfl⟩

/-! ## C4 -/

/-- C4: the pattern score equals the minimum of 1 and the sum, over every
pattern of the catalog and every reported non-overlapping match of that
pattern, of the pattern weight (additive across patterns and across
repeated occurrences, no diminishing returns). -/
theorem claim4_pattern_score_capped_sum (pd : PatternDetector) (code : Str) :
    (pd.Detect code).2 =
      min 1 ((pd.patterns.map
        (fun p => p.weight * ((p.find code).length : ℚ))).sum) :=
  Detect_snd_eq pd code

/-! ## C5 -/

/-- C5: the discretized confidence level is very_low on [0, 0.30], low on
(0.30, 0.50], medium on (0.50, 0.70], high on (0.70, 0.85] and very_high
above 0.85, and the Result records exactly this discretization of its
combined confidence. -/
theorem claim5_confidence_levels (conf : ℚ) :
    (Detector.confidenceLevel conf = "very_low" ↔ conf ≤ 0.30) ∧
      (Detector.confidenceLevel conf = "low" ↔ 0.30 < conf ∧ conf ≤ 0.50) ∧
      (Detector.confidenceLevel conf = "medium" ↔
        0.50 < conf ∧ conf ≤ 0.70) ∧
      (Detector.confidenceLevel conf = "high" ↔ 0.70 < conf ∧ conf ≤ 0.85) ∧
      (Detector.confidenceLevel conf = "very_high" ↔ 0.85 < conf) ∧
      ∀ (d : Detector) (code : Str) (fname : List Str),
        (d.AnalyzeCode code fname).ConfidenceLevel =
          Detector.confidenceLevel (d.AnalyzeCode code fname).AIConfidence := by
  refine ⟨?_, ?_, ?_, ?_, ?_, fun d code fname => rfl⟩ <;>
  · constructor
    · intro h
      revert h
      unfold Detector.confidenceLevel
      split_ifs with h1 h2 h3 h4 <;> intro h <;>
        first
          | exact absurd h (by decide)
          | (constructor <;> linarith)
          | linarith
    · intro h
      unfold Detector.confidenceLevel
      split_ifs with h1 h2 h3 h4 <;>
        first
          | rfl
          | (exfalso; rcases h with ⟨ha, hb⟩; linarith)
          | (exfalso; linarith)

/-! ## C3 -/

/-- C3: on every input, the style score, the pattern score and the
combined confidence of a default-constructed detector lie in [0,1]; every
stylometric signal is clamped to [0,1] before weighting and the fixed
weights sum to 1. -/
theorem claim3_scores_in_unit_interval (env : RegexEnv) (code : Str)
    (fname : List Str) :
    (0 ≤ ((NewDetector env).AnalyzeCode code fname).StyleScore ∧
        ((NewDetector env).AnalyzeCode code fname).StyleScore ≤ 1) ∧
      (0 ≤ ((NewDetector env).AnalyzeCode code fname).PatternScore ∧
        ((NewDetector env).AnalyzeCode code fname).PatternScore ≤ 1) ∧
      (0 ≤ ((NewDetector env).AnalyzeCode code fname).AIConfidence ∧
        ((NewDetector env).AnalyzeCode code fname).AIConfidence ≤ 1) ∧
      styleWeights.sum = 1 ∧
      ∀ x : ℚ, 0 ≤ clip01 x ∧ clip01 x ≤ 1 := by
  obtain ⟨hs, hp, _⟩ := analyzeCode_fields (NewDetector env) code fname
  refine ⟨?_, ?_, ?_, by norm_num [styleWeights], clip01_bounds⟩
  · rw [hs]
    exact styleConf_bounds _
  · rw [hp]
    exact ⟨detect_score_nonneg _ _ (newPD_weights env), detect_score_le_one _ _⟩
  · exact analyzeCode_conf_bounds _ _ _ (newPD_weights env)

/-! ## C6 -/

/-- C6 counterexample: on the 90-character cexCode, the recorded snippet
of the copilot_try_catch match is NOT at most 80 characters (it is 83:
the first 80 characters of the match plus a 3-character ellipsis). -/
theorem claim6_counterexample :
    ¬ ∀ pm ∈ (pdCex.Detect cexCode).1, pm.Snippet.length ≤ 80 := by
  intro hall
  have hlist : (pdCex.Detect cexCode).1 = [cexMatch] := rfl
  have hmem : cexMatch ∈ (pdCex.Detect cexCode).1 := by
    rw [hlist]
    exact List.mem_singleton_self _
  have h80 := hall cexMatch hmem
  have h83 : cexMatch.Snippet.length = 83 := by decide
  omega

theorem mem_detectMatchStep_fold (p : PatternDef) (code : Str) :
    ∀ (ms : List (Nat × Nat)) (acc : List PatternMatch × ℚ),
      ∀ pm ∈ (ms.foldl (detectMatchStep p code) acc).1,
        pm ∈ acc.1 ∨ pm.Snippet.length ≤ 83 := by
  intro ms
  induction ms with
  | nil => intro acc pm h; exact Or.inl h
  | cons m ms ih =>
    intro acc pm h
    rw [List.foldl_cons] at h
    rcases ih (detectMatchStep p code acc m) pm h with hin | hle
    · simp only [detectMatchStep, List.mem_append, List.mem_singleton] at hin
      rcases hin with hin | rfl
      · exact Or.inl hin
      · refine Or.inr ?_
        dsimp only
        split_ifs with hlong
        · rw [List.length_append, List.length_take]
          have h3 : ("...".toList).length = 3 := rfl
          rw [h3]
          omega
        · omega
    · exact Or.inr hle

theorem mem_detectPatternStep_fold (code : Str) :
    ∀ (ps : List PatternDef) (acc : List PatternMatch × ℚ),
      ∀ pm ∈ (ps.foldl (detectPatternStep code) acc).1,
        pm ∈ acc.1 ∨ pm.Snippet.length ≤ 83 := by
  intro ps
  induction ps with
  | nil => intro acc pm h; exact Or.inl h
  | cons p ps ih =>
    intro acc pm h
    rw [List.foldl_cons] at h
    rcases ih (detectPatternStep code acc p) pm h with hin | hle
    · exact mem_detectMatchStep_fold p code (p.find code) acc pm hin
    · exact Or.inr hle

/-- C6 amended: every snippet recorded by PatternDetector.Detect is at
most 83 characters long — a match of at most 80 characters is recorded in
full, a longer one is truncated to its first 80 characters plus a
3-character ellipsis. -/
theorem claim6_snippet_le_83 (pd : PatternDetector) (code : Str) :
    ∀ pm ∈ (pd.Detect code).1, pm.Snippet.length ≤ 83 := by
  intro pm h
  have h1 : pm ∈ (pd.patterns.foldl (detectPatternStep code) ([], 0)).1 := h
  rcases mem_detectPatternStep_fold code pd.patterns ([], 0) pm h1 with hin | hle
  · simp at hin
  · exact hle

/-- Witness for the amended C6 at the concrete match on cexCode. -/
theorem claim6_witness :
    cexMatch ∈ (pdCex.Detect cexCode).1 ∧ cexMatch.Snippet.length ≤ 83 := by
  have hlist : (pdCex.Detect cexCode).1 = [cexMatch] := rfl
  have hmem : cexMatch ∈ (pdCex.Detect cexCode).1 := by
    rw [hlist]
    exact List.mem_singleton_self _
  exact ⟨hmem, claim6_snippet_le_83 pdCex cexCode cexMatch hmem⟩

/-! ## C7 -/

theorem findWF_nil (f : Str → List (Nat × Nat)) (h : FindWF f) : f [] = [] := by
  cases hf : f [] with
  | nil => rfl
  | cons m ms =>
    have hm := h [] m (by rw [hf]; exact List.mem_cons_self m ms)
    rw [List.length_nil] at hm
    omega

theorem detect_fold_id (code : Str) :
    ∀ (ps : List PatternDef) (acc : List PatternMatch × ℚ),
      (∀ p ∈ ps, p.find code = []) →
      ps.foldl (detectPatternStep code) acc = acc := by
  intro ps
  induction ps with
  | nil => intro acc _; rfl
  | cons p ps ih =>
    intro acc h
    rw [List.foldl_cons]
    have hp : detectPatternStep code acc p = acc := by
      unfold detectPatternStep
      rw [h p (List.mem_cons_self p ps)]
      rfl
    rw [hp]
    exact ih acc (fun q hq => h q (List.mem_cons_of_mem p hq))

theorem detect_empty (pd : PatternDetector)
    (h : ∀ p ∈ pd.patterns, p.find [] = []) : pd.Detect [] = ([], 0) := by
  unfold PatternDetector.Detect
  rw [detect_fold_id [] pd.patterns ([], 0) h]
  norm_num

theorem analyze_empty (a : StyleAnalyzer)
    (hb : ∀ f ∈ a.boilerplatePatterns, f [] = []) :
    a.Analyze [] = ⟨0.5, 0.5, 0, 0, 0, 0, 1⟩ := by
  have hcount : ((a.boilerplatePatterns.map (fun f => (f [] : List (Nat × Nat)).length)).sum : Nat) = 0 := by
    refine List.sum_eq_zero ?_
    intro x hx
    rcases List.mem_map.mp hx with ⟨f, hf, rfl⟩
    rw [hb f hf]
    rfl
  have hboiler : analyzeBoilerplate a.boilerplatePatterns [] 1 = 0 := by
    unfold analyzeBoilerplate
    dsimp only
    rw [hcount]
    norm_num
  unfold StyleAnalyzer.Analyze
  dsimp only
  have hsplit : splitLines ([] : Str) = [[]] := rfl
  rw [hsplit]
  have hfilter : ([[]] : List Str).filter (fun l => !(trimSpace l).isEmpty) = [] := rfl
  rw [hfilter]
  simp only [StyleMetrics.mk.injEq]
  refine ⟨rfl, rfl, ?_, rfl, rfl, ?_, ?_⟩
  · show analyzeComments [[]] = 0
    unfold analyzeComments
    have h1 : (([[]] : List Str).filter isCommentLine).length = 0 := rfl
    rw [h1]
    norm_num
  · show analyzeBoilerplate a.boilerplatePatterns [] ([[]] : List Str).length = 0
    rw [show ([[]] : List Str).length = 1 from rfl]
    exact hboiler
  · show emptyLineRatio [[]] = 1
    unfold emptyLineRatio
    have h1 : (([[]] : List Str).filter (fun l => (trimSpace l).isEmpty)).length = 1 := rfl
    rw [h1]
    norm_num

theorem styleConf_empty :
    StyleMetrics.AIConfidence ⟨0.5, 0.5, 0, 0, 0, 0, 1⟩ = 3 / 8 := by
  rw [styleConf_eq]
  norm_num [clip01, min_def, max_def, abs]

/-- C7: AnalyzeCode on the empty string is fully defined (every
zero-denominator branch of the feature extractors takes its guard):
the line count is 1 (splitting the empty string on newlines), the pattern
match list is empty, the pattern score is 0, and the style and combined
scores take the definite values 3/8 and 27/160. -/
theorem claim7_empty_input (env : RegexEnv) (hwf : env.WF) (fname : List Str) :
    ((NewDetector env).AnalyzeCode [] fname).LinesOfCode = 1 ∧
      ((NewDetector env).AnalyzeCode [] fname).Patterns = [] ∧
      ((NewDetector env).AnalyzeCode [] fname).PatternScore = 0 ∧
      ((NewDetector env).AnalyzeCode [] fname).StyleScore = 3 / 8 ∧
      ((NewDetector env).AnalyzeCode [] fname).AIConfidence = 27 / 160 := by
  have hdet : (NewDetector env).patternDetector.Detect [] = ([], 0) := by
    refine detect_empty _ ?_
    intro p hp
    rcases List.mem_map.mp hp with ⟨nw, _, rfl⟩
    exact findWF_nil _ (hwf nw.1)
  have hsty : (NewDetector env).styleAnalyzer.Analyze [] = ⟨0.5, 0.5, 0, 0, 0, 0, 1⟩ := by
    refine analyze_empty _ ?_
    intro f hf
    rcases List.mem_map.mp hf with ⟨k, _, rfl⟩
    exact findWF_nil _ (hwf k)
  obtain ⟨hs, hp, hc⟩ := analyzeCode_fields (NewDetector env) [] fname
  refine ⟨rfl, ?_, ?_, ?_, ?_⟩
  · show ((NewDetector env).patternDetector.Detect []).1 = []
    rw [hdet]
  · rw [hp, hdet]
  · rw [hs, hsty, styleConf_empty]
  · rw [hc, hsty, styleConf_empty, hdet]
    norm_num

/-- Witness for C7: the trivial well-formed engine env0 on an empty file
name list. -/
theorem claim7_witness :
    RegexEnv.WF env0 ∧
      (((NewDetector env0).AnalyzeCode [] []).LinesOfCode = 1 ∧
        ((NewDetector env0).AnalyzeCode [] []).Patterns = [] ∧
        ((NewDetector env0).AnalyzeCode [] []).PatternScore = 0 ∧
        ((NewDetector env0).AnalyzeCode [] []).StyleScore = 3 / 8 ∧
        ((NewDetector env0).AnalyzeCode [] []).AIConfidence = 27 / 160) := by
  have hwf : RegexEnv.WF env0 := by
    intro k s m hm
    simp [env0] at hm
  exact ⟨hwf, claim7_empty_input env0 hwf []⟩

/-! ## Lemmas about the directory walk -/

theorem length_filter_not (p : Result → Bool) (l : List Result) :
    (l.filter p).length + (l.filter (fun x => !(p x))).length = l.length := by
  induction l with
  | nil => rfl
  | cons x xs ih =>
    cases hx : p x <;> simp [List.filter_cons, hx] <;> omega

theorem maxStep_le_self (m : ℚ) (r : Result) : m ≤ maxStep m r := by
  unfold maxStep
  split_ifs with h
  · exact le_of_lt h
  · exact le_refl m

theorem conf_le_maxStep (m : ℚ) (r : Result) : r.AIConfidence ≤ maxStep m r := by
  unfold maxStep
  split_ifs with h
  · exact le_refl _
  · exact not_lt.mp h

theorem foldl_maxStep_ge : ∀ (rs : List Result) (m : ℚ),
    m ≤ rs.foldl maxStep m := by
  intro rs
  induction rs with
  | nil => intro m; exact le_refl m
  | cons r rs ih =>
    intro m
    exact le_trans (maxStep_le_self m r) (ih (maxStep m r))

theorem mem_le_foldl_maxStep : ∀ (rs : List Result) (m : ℚ) (r : Result),
    r ∈ rs → r.AIConfidence ≤ rs.foldl maxStep m := by
  intro rs
  induction rs with
  | nil => intro m r h; exact absurd h (List.not_mem_nil r)
  | cons x xs ih =>
    intro m r h
    rcases List.mem_cons.mp h with rfl | h
    · exact le_trans (conf_le_maxStep m r) (foldl_maxStep_ge xs (maxStep m r))
    · exact ih (maxStep m x) r h

theorem foldl_maxStep_attained : ∀ (rs : List Result) (m : ℚ),
    rs.foldl maxStep m = m ∨ ∃ r ∈ rs, rs.foldl maxStep m = r.AIConfidence := by
  intro rs
  induction rs with
  | nil => intro m; exact Or.inl rfl
  | cons x xs ih =>
    intro m
    rcases ih (maxStep m x) with h | ⟨r, hr, h⟩
    · by_cases hx : x.AIConfidence > m
      · refine Or.inr ⟨x, List.mem_cons_self x xs, ?_⟩
        have hstep : maxStep m x = x.AIConfidence := by
          unfold maxStep
          rw [if_pos hx]
        calc (x :: xs).foldl maxStep m = xs.foldl maxStep (maxStep m x) := rfl
          _ = maxStep m x := h
          _ = x.AIConfidence := hstep
      · refine Or.inl ?_
        have hstep : maxStep m x = m := by
          unfold maxStep
          rw [if_neg hx]
        calc (x :: xs).foldl maxStep m = xs.foldl maxStep (maxStep m x) := rfl
          _ = maxStep m x := h
          _ = m := hstep
    · exact Or.inr ⟨r, List.mem_cons_of_mem x hr, h⟩

theorem appendResult_good (acc : WalkAcc) (r : Result) (pre : List Str)
    (n : Str) (hpath : r.FilePath = pre ++ [n]) (hconf : 0 ≤ r.AIConfidence)
    (hpre : ∀ c ∈ pre, c ∉ skipDirList) (h : GoodAcc acc) :
    GoodAcc ⟨⟨acc.res.FilesScanned + 1,
      (if r.IsAIGenerated then acc.res.AIDetected + 1 else acc.res.AIDetected),
      (if r.IsAIGenerated then acc.res.HumanWritten
        else acc.res.HumanWritten + 1),
      (if r.AIConfidence > acc.res.MaxAIConfidence then r.AIConfidence
        else acc.res.MaxAIConfidence),
      acc.res.AIPercentage,
      acc.res.Results ++ [r]⟩,
      (if r.IsAIGenerated then acc.totalAILines + r.LinesOfCode
        else acc.totalAILines),
      acc.totalLines + r.LinesOfCode⟩ := by
  have hdrop : (pre ++ [n]).dropLast = pre := by simp
  refine ⟨?_, ?_, ?_, ?_, ?_, ?_, ?_, ?_, ?_⟩
  · intro r' hr' c hc
    rcases List.mem_append.mp hr' with hin | hin
    · exact h.paths r' hin c hc
    · rcases List.mem_singleton.mp hin with rfl
      rw [hpath, hdrop] at hc
      exact hpre c hc
  · show acc.res.FilesScanned + 1 = (acc.res.Results ++ [r]).length
    rw [List.length_append, h.scanned, List.length_singleton]
  · show (if r.IsAIGenerated then acc.res.AIDetected + 1
        else acc.res.AIDetected) = _
    cases hAI : r.IsAIGenerated <;>
      simp [List.filter_append, hAI, h.ai]
  · show (if r.IsAIGenerated then acc.res.HumanWritten
        else acc.res.HumanWritten + 1) = _
    cases hAI : r.IsAIGenerated <;>
      simp [List.filter_append, hAI, h.human]
  · show acc.totalLines + r.LinesOfCode = sumLines (acc.res.Results ++ [r])
    simp [sumLines, h.lines]
  · show (if r.IsAIGenerated then acc.totalAILines + r.LinesOfCode
        else acc.totalAILines) = sumAILines (acc.res.Results ++ [r])
    cases hAI : r.IsAIGenerated <;>
      simp [sumAILines, List.filter_append, hAI, h.ailines]
  · show (if r.AIConfidence > acc.res.MaxAIConfidence then r.AIConfidence
        else acc.res.MaxAIConfidence) = maxFold (acc.res.Results ++ [r])
    rw [h.maxc]
    simp [maxFold, List.foldl_append, maxStep]
  · exact h.pct
  · intro r' hr'
    rcases List.mem_append.mp hr' with hin | hin
    · exact h.conf_nonneg r' hin
    · rcases List.mem_singleton.mp hin with rfl
      exact hconf

theorem processFile_good (d : Detector)
    (hw : ∀ p ∈ d.patternDetector.patterns, 0 ≤ p.weight)
    (pre : List Str) (n : Str) (content : Option Str) (acc : WalkAcc)
    (hpre : ∀ c ∈ pre, c ∉ skipDirList) (h : GoodAcc acc) :
    GoodAcc (processFile d pre n content acc) := by
  unfold processFile
  split_ifs with hext
  · cases content with
    | none => exact h
    | some code =>
      exact appendResult_good acc (d.AnalyzeCode code (pre ++ [n])) pre n rfl
        ((analyzeCode_conf_bounds d code (pre ++ [n]) hw).1) hpre h
  · cases content <;> exact h

theorem walk_good (d : Detector)
    (hw : ∀ p ∈ d.patternDetector.patterns, 0 ≤ p.weight) :
    ∀ k : Nat,
      (∀ (t : FSEntry) (pre : List Str) (acc : WalkAcc), sizeOf t ≤ k →
        (∀ c ∈ pre, c ∉ skipDirList) → GoodAcc acc →
          GoodAcc (walkEntry d t pre acc)) ∧
      (∀ (ts : List FSEntry) (pre : List Str) (acc : WalkAcc),
        sizeOf ts ≤ k →
        (∀ c ∈ pre, c ∉ skipDirList) → GoodAcc acc →
          GoodAcc (walkList d ts pre acc)) := by
  intro k
  induction k using Nat.strong_induction_on with
  | _ k ih =>
    constructor
    · intro t pre acc hk hpre hacc
      cases t with
      | file n c =>
        exact processFile_good d hw pre n c acc hpre hacc
      | dir n cs =>
        rw [show walkEntry d (.dir n cs) pre acc =
          if n ∈ skipDirList then acc else walkList d cs (pre ++ [n]) acc
          from rfl]
        split_ifs with hskip
        · exact hacc
        · have hsz : sizeOf (FSEntry.dir n cs) = 1 + sizeOf n + sizeOf cs :=
            by simp
          have hlt : sizeOf cs < k := by omega
          refine (ih (sizeOf cs) hlt).2 cs (pre ++ [n]) acc (le_refl _)
            ?_ hacc
          intro c hc
          rcases List.mem_append.mp hc with hin | hin
          · exact hpre c hin
          · rcases List.mem_singleton.mp hin with rfl
            exact hskip
    · intro ts pre acc hk hpre hacc
      cases ts with
      | nil => exact hacc
      | cons e es =>
        rw [show walkList d (e :: es) pre acc =
          walkList d es pre (walkEntry d e pre acc) from rfl]
        have hsz : sizeOf (e :: es) = 1 + sizeOf e + sizeOf es := by simp
        have h1 : sizeOf e < k := by omega
        have h2 : sizeOf es < k := by omega
        exact (ih (sizeOf es) h2).2 es pre _ (le_refl _) hpre
          ((ih (sizeOf e) h1).1 e pre acc (le_refl _) hpre hacc)

theorem acc0_good : GoodAcc ⟨⟨0, 0, 0, 0, 0, []⟩, 0, 0⟩ := by
  refine ⟨?_, rfl, rfl, rfl, rfl, rfl, rfl, rfl, ?_⟩ <;>
    intro r hr <;> simp at hr

theorem walk_root_good (d : Detector)
    (hw : ∀ p ∈ d.patternDetector.patterns, 0 ≤ p.weight) (root : FSEntry) :
    GoodAcc (walkEntry d root [] ⟨⟨0, 0, 0, 0, 0, []⟩, 0, 0⟩) :=
  (walk_good d hw (sizeOf root)).1 root [] _ (le_refl _)
    (by intro c hc; simp at hc) acc0_good

theorem scanDirectory_fields (d : Detector) (root : FSEntry) :
    (d.ScanDirectory root).Results =
        (walkEntry d root [] ⟨⟨0, 0, 0, 0, 0, []⟩, 0, 0⟩).res.Results ∧
      (d.ScanDirectory root).FilesScanned =
        (walkEntry d root [] ⟨⟨0, 0, 0, 0, 0, []⟩, 0, 0⟩).res.FilesScanned ∧
      (d.ScanDirectory root).AIDetected =
        (walkEntry d root [] ⟨⟨0, 0, 0, 0, 0, []⟩, 0, 0⟩).res.AIDetected ∧
      (d.ScanDirectory root).HumanWritten =
        (walkEntry d root [] ⟨⟨0, 0, 0, 0, 0, []⟩, 0, 0⟩).res.HumanWritten ∧
      (d.ScanDirectory root).MaxAIConfidence =
        (walkEntry d root [] ⟨⟨0, 0, 0, 0, 0, []⟩, 0, 0⟩).res.MaxAIConfidence := by
  unfold Detector.ScanDirectory
  dsimp only
  split_ifs with h <;> exact ⟨rfl, rfl, rfl, rfl, rfl⟩

/-! ## C8 -/

/-- C8: the aiPercentage of a ScanResult equals the line-weighted AI
ratio over the recorded results times 100, and 0 when no lines were
scanned. -/
theorem claim8_ai_percentage (env : RegexEnv) (th : ℚ) (root : FSEntry) :
    ((Detector.SetThreshold (NewDetector env) th).ScanDirectory
        root).AIPercentage =
      if sumLines ((Detector.SetThreshold (NewDetector env) th).ScanDirectory
          root).Results = 0
      then 0
      else (sumAILines ((Detector.SetThreshold (NewDetector env)
              th).ScanDirectory root).Results : ℚ) /
          (sumLines ((Detector.SetThreshold (NewDetector env)
              th).ScanDirectory root).Results : ℚ) * 100 := by
  set d := Detector.SetThreshold (NewDetector env) th with hd
  have hw : ∀ p ∈ d.patternDetector.patterns, 0 ≤ p.weight :=
    newPD_weights env
  have hg := walk_root_good d hw root
  rw [(scanDirectory_fields d root).1]
  unfold Detector.ScanDirectory
  dsimp only
  split_ifs with hpos hzero hzero
  · rw [← hg.lines] at hzero
    omega
  · show ((walkEntry d root [] ⟨⟨0, 0, 0, 0, 0, []⟩, 0, 0⟩).totalAILines : ℚ) /
        ((walkEntry d root [] ⟨⟨0, 0, 0, 0, 0, []⟩, 0, 0⟩).totalLines : ℚ) *
        100 = _
    rw [hg.lines, hg.ailines]
  · exact hg.pct
  · rw [← hg.lines] at hzero
    omega

/-! ## C9 -/

/-- C9: no result recorded by ScanDirectory lies under a directory whose
base name is on the fixed skip-list — every directory component of every
recorded file path avoids the skip-list — and a skip-listed directory is
pruned entirely by the walk: it contributes nothing and is not descended
into. -/
theorem claim9_skiplist_pruning (env : RegexEnv) (th : ℚ) (root : FSEntry) :
    (∀ r ∈ ((Detector.SetThreshold (NewDetector env) th).ScanDirectory
        root).Results,
      ∀ c ∈ r.FilePath.dropLast, c ∉ skipDirList) ∧
    (∀ (n : Str) (cs : List FSEntry) (pre : List Str) (acc : WalkAcc),
      n ∈ skipDirList →
      walkEntry (Detector.SetThreshold (NewDetector env) th)
        (.dir n cs) pre acc = acc) := by
  set d := Detector.SetThreshold (NewDetector env) th with hd
  have hw : ∀ p ∈ d.patternDetector.patterns, 0 ≤ p.weight :=
    newPD_weights env
  have hg := walk_root_good d hw root
  constructor
  · intro r hr
    rw [(scanDirectory_fields d root).1] at hr
    exact hg.paths r hr
  · intro n cs pre acc hn
    rw [show walkEntry d (.dir n cs) pre acc =
      if n ∈ skipDirList then acc else walkList d cs (pre ++ [n]) acc
      from rfl]
    rw [if_pos hn]

/-- Witness for C9: the concrete scan of tree0 with d0 records exactly
r0, whose directory components avoid the skip-list, and a node_modules
directory holding a source file is pruned whole. -/
theorem claim9_witness :
    (r0 ∈ (d0.ScanDirectory tree0).Results ∧
      ∀ c ∈ r0.FilePath.dropLast, c ∉ skipDirList) ∧
    walkEntry d0
        (.dir ("node_modules".toList) [.file ("b.go".toList) (some [])]) []
        ⟨⟨0, 0, 0, 0, 0, []⟩, 0, 0⟩ =
      ⟨⟨0, 0, 0, 0, 0, []⟩, 0, 0⟩ := by
  have h9 := claim9_skiplist_pruning env0 0.70 tree0
  have hres : (d0.ScanDirectory tree0).Results = [r0] := rfl
  have hmem : r0 ∈ (d0.ScanDirectory tree0).Results := by
    rw [hres]
    exact List.mem_singleton_self _
  refine ⟨⟨hmem, h9.1 r0 hmem⟩, ?_⟩
  exact h9.2 ("node_modules".toList) [.file ("b.go".toList) (some [])] []
    ⟨⟨0, 0, 0, 0, 0, []⟩, 0, 0⟩ (by decide)

/-! ## C10 -/

/-- C10: in every ScanResult, filesScanned = aiDetected + humanWritten,
filesScanned is the number of recorded results, aiDetected and
humanWritten count the AI-flagged and non-flagged results, and
maxAIConfidence is the maximum recorded confidence (0 when no results
were recorded). -/
theorem claim10_scan_counts (env : RegexEnv) (th : ℚ) (root : FSEntry) :
    ((Detector.SetThreshold (NewDetector env) th).ScanDirectory
        root).FilesScanned =
      ((Detector.SetThreshold (NewDetector env) th).ScanDirectory
        root).AIDetected +
      ((Detector.SetThreshold (NewDetector env) th).ScanDirectory
        root).HumanWritten ∧
    ((Detector.SetThreshold (NewDetector env) th).ScanDirectory
        root).FilesScanned =
      ((Detector.SetThreshold (NewDetector env) th).ScanDirectory
        root).Results.length ∧
    ((Detector.SetThreshold (NewDetector env) th).ScanDirectory
        root).AIDetected =
      (((Detector.SetThreshold (NewDetector env) th).ScanDirectory
        root).Results.filter (fun r => r.IsAIGenerated)).length ∧
    ((Detector.SetThreshold (NewDetector env) th).ScanDirectory
        root).HumanWritten =
      (((Detector.SetThreshold (NewDetector env) th).ScanDirectory
        root).Results.filter (fun r => !r.IsAIGenerated)).length ∧
    (((Detector.SetThreshold (NewDetector env) th).ScanDirectory
        root).Results = [] →
      ((Detector.SetThreshold (NewDetector env) th).ScanDirectory
        root).MaxAIConfidence = 0) ∧
    (∀ r ∈ ((Detector.SetThreshold (NewDetector env) th).ScanDirectory
        root).Results,
      r.AIConfidence ≤ ((Detector.SetThreshold (NewDetector env)
        th).ScanDirectory root).MaxAIConfidence) ∧
    (((Detector.SetThreshold (NewDetector env) th).ScanDirectory
        root).Results ≠ [] →
      ∃ r ∈ ((Detector.SetThreshold (NewDetector env) th).ScanDirectory
          root).Results,
        ((Detector.SetThreshold (NewDetector env) th).ScanDirectory
          root).MaxAIConfidence = r.AIConfidence) := by
  set d := Detector.SetThreshold (NewDetector env) th with hd
  have hw : ∀ p ∈ d.patternDetector.patterns, 0 ≤ p.weight :=
    newPD_weights env
  have hg := walk_root_good d hw root
  obtain ⟨hres, hscan, hai, hhum, hmax⟩ := scanDirectory_fields d root
  rw [hres, hscan, hai, hhum, hmax, hg.scanned, hg.ai, hg.human, hg.maxc]
  refine ⟨?_, rfl, rfl, rfl, ?_, ?_, ?_⟩
  · exact (length_filter_not _ _).symm
  · intro hnil
    rw [hnil]
    rfl
  · intro r hr
    exact mem_le_foldl_maxStep _ 0 r hr
  · intro hnil
    rcases foldl_maxStep_attained
      (walkEntry d root [] ⟨⟨0, 0, 0, 0, 0, []⟩, 0, 0⟩).res.Results 0 with
        h | ⟨r, hr, h⟩
    · rcases List.exists_mem_of_ne_nil _ hnil with ⟨r, hr⟩
      refine ⟨r, hr, ?_⟩
      rw [maxFold] at *
      have h1 := mem_le_foldl_maxStep
        (walkEntry d root [] ⟨⟨0, 0, 0, 0, 0, []⟩, 0, 0⟩).res.Results 0 r hr
      have h2 := hg.conf_nonneg r hr
      rw [h] at h1
      linarith
    · exact ⟨r, hr, h⟩

/-- Witness for C10: the concrete scan of tree0 with d0. -/
theorem claim10_witness :
    (d0.ScanDirectory tree0).FilesScanned =
      (d0.ScanDirectory tree0).AIDetected +
        (d0.ScanDirectory tree0).HumanWritten ∧
    (d0.ScanDirectory tree0).FilesScanned =
      (d0.ScanDirectory tree0).Results.length ∧
    (d0.ScanDirectory tree0).AIDetected =
      ((d0.ScanDirectory tree0).Results.filter
        (fun r => r.IsAIGenerated)).length ∧
    (d0.ScanDirectory tree0).HumanWritten =
      ((d0.ScanDirectory tree0).Results.filter
        (fun r => !r.IsAIGenerated)).length ∧
    ((d0.ScanDirectory tree0).Results = [] →
      (d0.ScanDirectory tree0).MaxAIConfidence = 0) ∧
    (∀ r ∈ (d0.ScanDirectory tree0).Results,
      r.AIConfidence ≤ (d0.ScanDirectory tree0).MaxAIConfidence) ∧
    ((d0.ScanDirectory tree0).Results ≠ [] →
      ∃ r ∈ (d0.ScanDirectory tree0).Results,
        (d0.ScanDirectory tree0).MaxAIConfidence = r.AIConfidence) :=
  claim10_scan_counts env0 0.70 tree0

end VGX
